import Mathlib

/-!
Verification of the comic-scraper program in final2.py. Python strings are
embedded as lists of Unicode codepoints (Nat); every function below is a
shallow embedding of the corresponding Python function, with the same name
where Lean allows it. External collaborators (HTTP fetch, url resolution)
are modelled as parameters or as Except values.
-/

set_option autoImplicit false

namespace Scraper

/-- PyStr models a Python str as the list of its Unicode codepoints. -/
abbrev PyStr := List Nat

/-- lit converts a Lean string literal to its codepoint list, for writing
concrete PyStr values in theorems. -/
def lit (s : String) : PyStr := s.data.map Char.toNat

/-- pyIsSpace c holds when Python str.strip strips the codepoint c, that
is, when the Python predicate str.isspace holds of it: ASCII whitespace
9-13, the information separators 28-31, the space 32, plus NEL 133, NBSP
160, OGHAM 5760, the range 8192-8202, 8232, 8233, 8239, 8287 and 12288. -/
def pyIsSpace (c : Nat) : Bool :=
  c == 9 || c == 10 || c == 11 || c == 12 || c == 13 ||
  c == 28 || c == 29 || c == 30 || c == 31 || c == 32 ||
  c == 133 || c == 160 || c == 5760 ||
  (8192 ≤ c && c ≤ 8202) || c == 8232 || c == 8233 ||
  c == 8239 || c == 8287 || c == 12288

/-- pyLStrip removes leading Python whitespace, as str.lstrip does. -/
def pyLStrip : PyStr → PyStr
  | [] => []
  | c :: rest => if pyIsSpace c then pyLStrip rest else c :: rest

/-- pyRStrip removes trailing Python whitespace, as str.rstrip does. -/
def pyRStrip (s : PyStr) : PyStr := (pyLStrip s.reverse).reverse

/-- pyStrip models Python str.strip: whitespace removed from both ends. -/
def pyStrip (s : PyStr) : PyStr := pyRStrip (pyLStrip s)

/-- Characters that the external dependency pathvalidate.sanitize_filename
removes from a filename: control characters (below 32, and 127) and the
reserved punctuation backslash, slash, colon, star, question mark, double
quote, less than, greater than, pipe. Modelled from the description of the
sanitizer step in the spec (strip control characters, path separators,
reserved punctuation); the library is an external dependency whose source is
not part of this repository. -/
def isInvalidFilenameChar (c : Nat) : Bool :=
  c < 32 || c == 127 || c == 92 || c == 47 || c == 58 || c == 42 ||
    c == 63 || c == 34 || c == 60 || c == 62 || c == 124

/-- Model of the external pathvalidate.sanitize_filename call: invalid
filename characters are removed (the default replacement text is empty).
Reserved-device-name handling and length truncation are not modelled. -/
def sanitize_filename (s : PyStr) : PyStr :=
  s.filter (fun c => !isInvalidFilenameChar c)

/-- Model of the Python replace call on line 26: every space codepoint 32 is
replaced by the underscore codepoint 95; replace acts on each occurrence
separately, not on runs. -/
def pyReplaceSpaceUnderscore (s : PyStr) : PyStr :=
  s.map (fun c => if c == 32 then 95 else c)

/-- pyLowerChar lower-cases one codepoint; the ASCII range A-Z, which is all
the claims exercise, is mapped to a-z and every other codepoint is kept. -/
def pyLowerChar (c : Nat) : Nat := if 65 ≤ c ∧ c ≤ 90 then c + 32 else c

/-- pyLower models str.lower on the ASCII letters. -/
def pyLower (s : PyStr) : PyStr := s.map pyLowerChar

/-- make_safe_name embeds the Python function of the same name (final2.py
lines 23-28): strip, sanitize_filename, replace space by underscore,
lower-case, in that order. -/
def make_safe_name (name : PyStr) : PyStr :=
  pyLower (pyReplaceSpaceUnderscore (sanitize_filename (pyStrip name)))

/-- Node models one markup node yielded by soup.find_all (final2.py line
70): an h2 heading with its text, or an img with its optional src
attribute (node.get may return no value). -/
inductive Node where
  | heading (text : PyStr)
  | image (src : Option PyStr)
deriving DecidableEq

/-- ScrapeEvent records one filesystem or network side effect performed
inside the node loop of scrape_doctor_section: the os.makedirs call for a
title folder (line 86), or a download_image call with its resolved url and
destination filepath (line 108). -/
inductive ScrapeEvent where
  | mkdirTitle (path : PyStr)
  | download (imgUrl : PyStr) (filepath : PyStr)
deriving DecidableEq

/-- ScrapeState carries the loop state of scrape_doctor_section (lines
66-69): current_title, the image_counters dict (assoc list, Python dict
insertion order), the titles_for_doctor row list, the titles_seen set
(membership list), plus the trace of side effects performed so far. -/
structure ScrapeState where
  current_title : Option PyStr
  image_counters : List (PyStr × Nat)
  titles_for_doctor : List (PyStr × PyStr × PyStr)
  titles_seen : List PyStr
  events : List ScrapeEvent
deriving DecidableEq

/-- dictSet models Python dict assignment d[k] = v: overwrite the existing
entry in place, or append a new entry. -/
def dictSet (m : List (PyStr × Nat)) (k : PyStr) (v : Nat) : List (PyStr × Nat) :=
  match m with
  | [] => [(k, v)]
  | (k', v') :: rest => if k' = k then (k, v) :: rest else (k', v') :: dictSet rest k v

/-- dictGet models Python dict lookup d[k], returning none where Python
would raise KeyError. -/
def dictGet (m : List (PyStr × Nat)) (k : PyStr) : Option Nat :=
  match m with
  | [] => none
  | (k', v') :: rest => if k' = k then some v' else dictGet rest k

/-- pathJoin models os.path.join for the relative path components this
program passes: parent, separator codepoint 47, child. -/
def pathJoin (a b : PyStr) : PyStr := a ++ (47 :: b)

/-- natDigits renders a Nat in decimal as codepoints. -/
def natDigits (n : Nat) : PyStr := (Nat.toDigits 10 n).map Char.toNat

/-- pad2 models the Python format spec 02d: zero-pad to width two. -/
def pad2 (n : Nat) : PyStr := if n < 10 then 48 :: natDigits n else natDigits n

/-- pageFilename models the f-string on line 105 building page_NN.jpg. -/
def pageFilename (n : Nat) : PyStr := lit "page_" ++ pad2 n ++ lit ".jpg"

/-- scrapeStep embeds one iteration of the node loop of
scrape_doctor_section (final2.py lines 70-109). joinUrl abstracts the
urllib urljoin collaborator. An error result models the uncaught KeyError
that line 101 would raise if current_title were missing from
image_counters; the error carries the state at the moment of the raise. -/
def scrapeStep (joinUrl : PyStr → PyStr → PyStr) (section_url doctor_folder doctor_key : PyStr)
    (st : ScrapeState) (node : Node) : Except ScrapeState ScrapeState :=
  match node with
  | .heading raw =>
    let title_text := pyStrip raw
    if title_text = [] then .ok { st with current_title := none }
    else
      let safe_title := make_safe_name title_text
      if safe_title = [] then .ok { st with current_title := none }
      else
        let title_folder := pathJoin doctor_folder safe_title
        let st' : ScrapeState :=
          { st with current_title := some title_text,
                    image_counters := dictSet st.image_counters title_text 0,
                    events := st.events ++ [.mkdirTitle title_folder] }
        if safe_title ∈ st.titles_seen then .ok st'
        else .ok { st' with
                    titles_seen := st'.titles_seen ++ [safe_title],
                    titles_for_doctor := st'.titles_for_doctor ++
                      [(doctor_key, pyLower title_text, safe_title)] }
  | .image src? =>
    match st.current_title with
    | none => .ok st
    | some t =>
      match src? with
      | none => .ok st
      | some src =>
        if src = [] then .ok st
        else
          match dictGet st.image_counters t with
          | none => .error st
          | some n =>
            let page_num := n + 1
            let safe_title := make_safe_name t
            let title_folder := pathJoin doctor_folder safe_title
            let filepath := pathJoin title_folder (pageFilename page_num)
            .ok { st with
                    image_counters := dictSet st.image_counters t page_num,
                    events := st.events ++ [.download (joinUrl section_url src) filepath] }

instance {α β : Type} [DecidableEq α] [DecidableEq β] : DecidableEq (Except α β) := fun a b =>
  match a, b with
  | .ok x, .ok y =>
    if h : x = y then .isTrue (by rw [h]) else .isFalse (fun c => h (Except.ok.inj c))
  | .error x, .error y =>
    if h : x = y then .isTrue (by rw [h]) else .isFalse (fun c => h (Except.error.inj c))
  | .ok _, .error _ => .isFalse (fun c => Except.noConfusion c)
  | .error _, .ok _ => .isFalse (fun c => Except.noConfusion c)

/-- initState is the loop state on entry (final2.py lines 66-69). -/
def initState : ScrapeState := ⟨none, [], [], [], []⟩

/-- runNodes folds scrapeStep over the node sequence in document order,
propagating the (never reached) KeyError like an uncaught exception. -/
def runNodes (joinUrl : PyStr → PyStr → PyStr) (section_url doctor_folder doctor_key : PyStr)
    (st : ScrapeState) : List Node → Except ScrapeState ScrapeState
  | [] => .ok st
  | n :: rest =>
    match scrapeStep joinUrl section_url doctor_folder doctor_key st n with
    | .error st' => .error st'
    | .ok st' => runNodes joinUrl section_url doctor_folder doctor_key st' rest

/-- RunEffect records one observable side effect of a whole run of main:
the os.makedirs of the download root (line 38), the os.makedirs of a
doctor folder (line 45), a scrape-level event, or the writing of the CSV
or PDF manifest with its numbered rows. -/
inductive RunEffect where
  | mkdirRoot (path : PyStr)
  | mkdirDoctor (path : PyStr)
  | scrape (e : ScrapeEvent)
  | writeCSV (path : PyStr) (rows : List (Nat × PyStr × PyStr × PyStr))
  | writePDF (path : PyStr) (rows : List (Nat × PyStr × PyStr × PyStr))
deriving DecidableEq

/-- isWriteEffect selects the CSV and PDF file-writing effects. -/
def isWriteEffect : RunEffect → Bool
  | .writeCSV _ _ => true
  | .writePDF _ _ => true
  | _ => false

/-- numberRowsFrom embeds the counter loop shared by create_csv (lines
116-119) and create_pdf (lines 136-139): each row is written with the
incremented counter value. -/
def numberRowsFrom (counter : Nat) : List (PyStr × PyStr × PyStr) → List (Nat × PyStr × PyStr × PyStr)
  | [] => []
  | r :: rest => (counter + 1, r) :: numberRowsFrom (counter + 1) rest

/-- create_csv models the data rows written by create_csv: the rows in
order, numbered from 1 by the write-time counter. The Python row tuples
carry no ordinal; it exists only here. -/
def create_csv (all_rows : List (PyStr × PyStr × PyStr)) : List (Nat × PyStr × PyStr × PyStr) :=
  numberRowsFrom 0 all_rows

/-- create_pdf models the table body rows of create_pdf, numbered by the
same write-time counter pattern as create_csv. -/
def create_pdf (all_rows : List (PyStr × PyStr × PyStr)) : List (Nat × PyStr × PyStr × PyStr) :=
  numberRowsFrom 0 all_rows

/-- scrapeSectionOutcome packages what the node loop of
scrape_doctor_section leaves behind once the page was fetched: the doctor
folder mkdir followed by the loop events, and either the row list or the
propagated exception. -/
def scrapeSectionOutcome (doctor_folder : PyStr) :
    Except ScrapeState ScrapeState →
      List RunEffect × Except Unit (List (PyStr × PyStr × PyStr))
  | .ok st => (.mkdirDoctor doctor_folder :: st.events.map .scrape, .ok st.titles_for_doctor)
  | .error st => (.mkdirDoctor doctor_folder :: st.events.map .scrape, .error ())

/-- scrape_doctor_section embeds the function of the same name (lines
58-110) at the granularity main observes: the doctor folder is created
first (line 59), then the section page fetch either fails, modelled by an
error fetch result so that the raise_for_status exception on line 64
propagates, or yields the node sequence which the loop processes. The
returned pair is the list of performed effects and either the
titles_for_doctor row list or the propagated exception. -/
def scrape_doctor_section (joinUrl : PyStr → PyStr → PyStr)
    (section_url doctor_key download_root : PyStr)
    (fetched : Except Unit (List Node)) :
    List RunEffect × Except Unit (List (PyStr × PyStr × PyStr)) :=
  match fetched with
  | .error _ => ([.mkdirDoctor (pathJoin download_root doctor_key)], .error ())
  | .ok nodes =>
    scrapeSectionOutcome (pathJoin download_root doctor_key)
      (runNodes joinUrl section_url (pathJoin download_root doctor_key) doctor_key
        initState nodes)

/-- isDigitN tests for an ASCII decimal digit codepoint. -/
def isDigitN (c : Nat) : Bool := 48 ≤ c && c ≤ 57

/-- parseDigitsGo accumulates the decimal value of the remaining digits,
accepting a single underscore between two digits as Python int does. -/
def parseDigitsGo (acc : Nat) : PyStr → Option Nat
  | [] => some acc
  | c :: rest =>
    if isDigitN c then parseDigitsGo (10 * acc + (c - 48)) rest
    else if c = 95 then
      match rest with
      | [] => none
      | d :: rest' =>
        if isDigitN d then parseDigitsGo (10 * acc + (d - 48)) rest' else none
    else none

/-- parseUDigits parses a nonempty digit sequence, first character a digit. -/
def parseUDigits : PyStr → Option Nat
  | [] => none
  | c :: rest => if isDigitN c then parseDigitsGo (c - 48) rest else none

/-- pyToInt models the Python int constructor on str (line 165): optional
surrounding whitespace, optional sign, ASCII digits with single
underscores between digits; anything else raises ValueError, modelled as
none. -/
def pyToInt (s : PyStr) : Option Int :=
  match pyStrip s with
  | 43 :: rest => (parseUDigits rest).map Int.ofNat
  | 45 :: rest => (parseUDigits rest).map (fun n => -(n : Int))
  | l => (parseUDigits l).map Int.ofNat

/-- selectFromInt is the selection logic of choose_doctor_keys (lines
164-174) applied to the parse outcome: a parse failure yields the empty
selection, the value len(options)+1 selects all options, a value in
1..len(options) selects that option, anything else yields the empty
selection. -/
def selectFromInt (options : List PyStr) : Option Int → List PyStr
  | none => []
  | some num =>
    if num = (options.length : Int) + 1 then options
    else if 1 ≤ num ∧ num ≤ (options.length : Int) then [options.getD (num.toNat - 1) []]
    else []

/-- choose_doctor_keys embeds the function of the same name (lines
157-174): the stripped input line is parsed as an int and the selection
logic is applied to the result. -/
def choose_doctor_keys (options : List PyStr) (choice : PyStr) : List PyStr :=
  selectFromInt options (pyToInt (pyStrip choice))

/-- lookupSection models DOCTOR_SECTIONS.get(key) on an assoc list. -/
def lookupSection (sections : List (PyStr × PyStr)) (k : PyStr) : Option PyStr :=
  match sections with
  | [] => none
  | (k', u) :: rest => if k' = k then some u else lookupSection rest k

/-- DOCTOR_SECTIONS is the configured section map (lines 16-21), in dict
literal order. -/
def DOCTOR_SECTIONS : List (PyStr × PyStr) :=
  [(lit "first_doctor", lit "https://classicdoctorwhocomics.wordpress.com/first-doctor-comics/"),
   (lit "second_doctor", lit "https://classicdoctorwhocomics.wordpress.com/second-doctor-comics/"),
   (lit "third_doctor", lit "https://classicdoctorwhocomics.wordpress.com/third-doctor-comics/"),
   (lit "fourth_doctor", lit "https://classicdoctorwhocomics.wordpress.com/fourth-doctor-comics/")]

/-- mainLoopCombine merges one section outcome with the outcome of the
remaining loop iterations: an exception in the section discards the rest
(the Python loop never reaches it), otherwise effects and rows are
concatenated in order, an exception later still aborting the whole loop. -/
def mainLoopCombine (first rest : List RunEffect × Except Unit (List (PyStr × PyStr × PyStr))) :
    List RunEffect × Except Unit (List (PyStr × PyStr × PyStr)) :=
  match first with
  | (evs, .error _) => (evs, .error ())
  | (evs, .ok rows) =>
    match rest with
    | (evs', .error _) => (evs ++ evs', .error ())
    | (evs', .ok rows') => (evs ++ evs', .ok (rows ++ rows'))

/-- mainLoopStep handles one key of the loop of main: a key with no
configured url is skipped with only a log line (line 186), and a key with
a url is scraped and combined with the rest of the loop. -/
def mainLoopStep (joinUrl : PyStr → PyStr → PyStr) (download_root : PyStr)
    (fetch : PyStr → Except Unit (List Node)) (k : PyStr)
    (rest : List RunEffect × Except Unit (List (PyStr × PyStr × PyStr))) :
    Option PyStr → List RunEffect × Except Unit (List (PyStr × PyStr × PyStr))
  | none => rest
  | some url =>
    mainLoopCombine (scrape_doctor_section joinUrl url k download_root (fetch url)) rest

/-- mainLoop embeds the for loop of main (lines 183-189): keys with no
configured url are skipped, each remaining key is scraped with its own
fetch outcome, rows are concatenated in section order, and an exception
escaping scrape_doctor_section aborts the loop, leaving the effects
performed so far. -/
def mainLoop (joinUrl : PyStr → PyStr → PyStr) (sections : List (PyStr × PyStr))
    (download_root : PyStr) (fetch : PyStr → Except Unit (List Node)) :
    List PyStr → List RunEffect × Except Unit (List (PyStr × PyStr × PyStr))
  | [] => ([], .ok [])
  | k :: ks =>
    mainLoopStep joinUrl download_root fetch k
      (mainLoop joinUrl sections download_root fetch ks) (lookupSection sections k)

/-- mainFinish is the tail of main after the section loop (lines 190-197):
a propagated exception ends the run abnormally with the effects performed;
otherwise, an empty row list skips both manifests and a nonempty one
writes the CSV and the PDF. -/
def mainFinish (download_root : PyStr) :
    List RunEffect × Except Unit (List (PyStr × PyStr × PyStr)) → List RunEffect × Bool
  | (evs, .error _) => ([.mkdirRoot download_root] ++ evs, false)
  | (evs, .ok all_rows) =>
    if all_rows = [] then ([.mkdirRoot download_root] ++ evs, true)
    else
      ([.mkdirRoot download_root] ++ evs ++
        [.writeCSV (pathJoin download_root (lit "titles_list.csv")) (create_csv all_rows),
         .writePDF (pathJoin download_root (lit "titles_list.pdf")) (create_pdf all_rows)],
       true)

/-- mainRun embeds main (lines 176-197) for a given section configuration,
interactive input line and fetch collaborator: the download root is
created first, the selection is read, an empty selection returns at once,
otherwise the sections are processed and the run finishes as mainFinish
describes. The Bool is true when main returns normally and false when an
exception propagated out of the section loop. -/
def mainRun (joinUrl : PyStr → PyStr → PyStr) (sections : List (PyStr × PyStr))
    (download_root : PyStr) (fetch : PyStr → Except Unit (List Node))
    (choice : PyStr) : List RunEffect × Bool :=
  if choose_doctor_keys (sections.map Prod.fst) choice = [] then
    ([.mkdirRoot download_root], true)
  else
    mainFinish download_root
      (mainLoop joinUrl sections download_root fetch
        (choose_doctor_keys (sections.map Prod.fst) choice))

/-- collapseWsGo replaces each maximal nonempty run of whitespace by one
underscore; the flag records being inside a run. Written from the words of
the spec sentence about internal whitespace runs, for comparison with the
per-character replace the code performs. -/
def collapseWsGo (inRun : Bool) : PyStr → PyStr
  | [] => []
  | c :: rest =>
    if pyIsSpace c then
      if inRun then collapseWsGo true rest else 95 :: collapseWsGo true rest
    else c :: collapseWsGo false rest

/-- sanitizeSpecWords is the sanitizer as the spec describes it: trim,
remove illegal characters, collapse each internal whitespace run to a
single underscore, lower-case. Written from the words of the spec, not
from the code, to be compared with make_safe_name. -/
def sanitizeSpecWords (x : PyStr) : PyStr :=
  pyLower (collapseWsGo false (sanitize_filename (pyStrip x)))

/-- validHeadings lists, in document order, the pairs of trimmed heading
text and safe name for the headings that the loop treats as valid: trimmed
text nonempty and safe name nonempty. -/
def validHeadings : List Node → List (PyStr × PyStr)
  | [] => []
  | .heading raw :: rest =>
    let t := pyStrip raw
    if t = [] then validHeadings rest
    else
      let s := make_safe_name t
      if s = [] then validHeadings rest else (t, s) :: validHeadings rest
  | .image _ :: rest => validHeadings rest

/-- dedupBySafe keeps, of the valid headings, the first occurrence of each
safe name not already in seen, in first-seen order. -/
def dedupBySafe (seen : List PyStr) : List (PyStr × PyStr) → List (PyStr × PyStr)
  | [] => []
  | (t, s) :: rest =>
    if s ∈ seen then dedupBySafe seen rest
    else (t, s) :: dedupBySafe (seen ++ [s]) rest

/-- isImageNode tests for the image node variant. -/
def isImageNode : Node → Bool
  | .image _ => true
  | .heading _ => false

/-- imageSrcs lists the nonempty src attributes of the image nodes, in
order. -/
def imageSrcs : List Node → List PyStr
  | [] => []
  | .image (some s) :: rest => if s = [] then imageSrcs rest else s :: imageSrcs rest
  | .image none :: rest => imageSrcs rest
  | .heading _ :: rest => imageSrcs rest

/-- segDownloads gives the download events a run of image nodes produces
when the page counter of the current title stands at n: the i-th usable
src, counting from zero, is fetched into page number n + i + 1 inside the
folder of the title, so from n = 0 the page numbers are the consecutive
integers 1, 2, 3 and so on. -/
def segDownloads (joinUrl : PyStr → PyStr → PyStr) (section_url folder : PyStr)
    (n : Nat) (imgs : List Node) : List ScrapeEvent :=
  (List.enumFrom n (imageSrcs imgs)).map
    (fun p => .download (joinUrl section_url p.2) (pathJoin folder (pageFilename (p.1 + 1))))

/-- msnChar is the per-character action of the sanitizer pipeline after the
strip: an illegal character is dropped, a space becomes an underscore, and
the result is lower-cased. -/
def msnChar (c : Nat) : Option Nat :=
  if isInvalidFilenameChar c then none
  else some (pyLowerChar (if c == 32 then 95 else c))

/-- headingUpd is the state update a valid heading with trimmed text t
performs (final2.py lines 84-92), written out for the step lemmas. -/
def headingUpd (doctor_folder doctor_key : PyStr) (st : ScrapeState) (t : PyStr) : ScrapeState :=
  if make_safe_name t ∈ st.titles_seen then
    { st with current_title := some t,
              image_counters := dictSet st.image_counters t 0,
              events := st.events ++ [.mkdirTitle (pathJoin doctor_folder (make_safe_name t))] }
  else
    { st with current_title := some t,
              image_counters := dictSet st.image_counters t 0,
              events := st.events ++ [.mkdirTitle (pathJoin doctor_folder (make_safe_name t))],
              titles_seen := st.titles_seen ++ [make_safe_name t],
              titles_for_doctor := st.titles_for_doctor ++ [(doctor_key, pyLower t, make_safe_name t)] }

/-- counterInv is the loop invariant behind claim C10: whenever the current
title is set, it is a key of the image_counters dict. -/
def counterInv (st : ScrapeState) : Prop :=
  ∀ t, st.current_title = some t → (dictGet st.image_counters t).isSome = true

lemma msn_pipeline (l : PyStr) :
    pyLower (pyReplaceSpaceUnderscore (sanitize_filename l)) = l.filterMap msnChar := by
  induction l with
  | nil => rfl
  | cons c l ih =>
    by_cases h : isInvalidFilenameChar c = true <;>
      simp [sanitize_filename, List.filter_cons, h, msnChar, pyReplaceSpaceUnderscore,
        pyLower, List.filterMap_cons, ← ih]

lemma make_safe_name_eq_filterMap (x : PyStr) :
    make_safe_name x = (pyStrip x).filterMap msnChar :=
  msn_pipeline (pyStrip x)

lemma mem_of_mem_pyLStrip {c : Nat} {s : PyStr} (h : c ∈ pyLStrip s) : c ∈ s := by
  induction s with
  | nil => exact h
  | cons a s ih =>
    by_cases ha : pyIsSpace a = true
    · rw [pyLStrip, if_pos ha] at h
      exact List.mem_cons_of_mem _ (ih h)
    · rwa [pyLStrip, if_neg ha] at h

lemma mem_of_mem_pyRStrip {c : Nat} {s : PyStr} (h : c ∈ pyRStrip s) : c ∈ s := by
  unfold pyRStrip at h
  rw [List.mem_reverse] at h
  have := mem_of_mem_pyLStrip h
  rwa [List.mem_reverse] at this

lemma mem_of_mem_pyStrip {c : Nat} {s : PyStr} (h : c ∈ pyStrip s) : c ∈ s :=
  mem_of_mem_pyLStrip (mem_of_mem_pyRStrip h)

lemma pyLStrip_eq_self {s : PyStr} (h : ∀ c ∈ s, pyIsSpace c = false) : pyLStrip s = s := by
  cases s with
  | nil => rfl
  | cons a s =>
    rw [pyLStrip, if_neg]
    simp [h a (by simp)]

lemma pyRStrip_eq_self {s : PyStr} (h : ∀ c ∈ s, pyIsSpace c = false) : pyRStrip s = s := by
  unfold pyRStrip
  rw [pyLStrip_eq_self, List.reverse_reverse]
  intro c hc
  exact h c (List.mem_reverse.mp hc)

lemma pyStrip_eq_self {s : PyStr} (h : ∀ c ∈ s, pyIsSpace c = false) : pyStrip s = s := by
  unfold pyStrip
  rw [pyLStrip_eq_self h, pyRStrip_eq_self h]

lemma pyLStrip_eq_nil {s : PyStr} (h : ∀ c ∈ s, pyIsSpace c = true) : pyLStrip s = [] := by
  induction s with
  | nil => rfl
  | cons a s ih =>
    rw [pyLStrip, if_pos (h a (by simp))]
    exact ih (fun c hc => h c (List.mem_cons_of_mem _ hc))

lemma pyStrip_eq_nil {s : PyStr} (h : ∀ c ∈ s, pyIsSpace c = true) : pyStrip s = [] := by
  unfold pyStrip
  rw [pyLStrip_eq_nil h]
  rfl

lemma pyLowerChar_idem (c : Nat) : pyLowerChar (pyLowerChar c) = pyLowerChar c := by
  unfold pyLowerChar
  split_ifs <;> omega

lemma msnChar_some_props {c c' : Nat} (h : msnChar c = some c')
    (hc : pyIsSpace c = true → c < 128) :
    pyIsSpace c' = false ∧ isInvalidFilenameChar c' = false ∧ c' ≠ 32 ∧ pyLowerChar c' = c' := by
  unfold msnChar at h
  by_cases hinv : isInvalidFilenameChar c = true
  · rw [if_pos hinv] at h
    exact absurd h (by simp)
  · rw [if_neg hinv] at h
    have hc' : c' = pyLowerChar (if c == 32 then 95 else c) := (Option.some.inj h).symm
    by_cases h32 : c = 32
    · subst h32
      subst hc'
      refine ⟨by decide, by decide, by decide, by decide⟩
    · rw [if_neg (by simpa using h32)] at hc'
      unfold pyLowerChar at hc'
      by_cases hAZ : 65 ≤ c ∧ c ≤ 90
      · rw [if_pos hAZ] at hc'
        subst hc'
        refine ⟨by simp [pyIsSpace]; omega, by simp [isInvalidFilenameChar]; omega, by omega,
          by unfold pyLowerChar; rw [if_neg (by omega)]⟩
      · rw [if_neg hAZ] at hc'
        rw [hc']
        have hnotsp : pyIsSpace c = false := by
          by_contra hsp
          have hsp' : pyIsSpace c = true := by
            cases hb : pyIsSpace c
            · exact absurd hb hsp
            · rfl
          have hlt := hc hsp'
          simp only [pyIsSpace, Bool.or_eq_true, beq_iff_eq, Bool.and_eq_true,
            decide_eq_true_eq] at hsp'
          simp only [isInvalidFilenameChar, Bool.or_eq_true, beq_iff_eq,
            decide_eq_true_eq] at hinv
          omega
        refine ⟨hnotsp, by simpa using hinv, h32, by unfold pyLowerChar; rw [if_neg hAZ]⟩

lemma msn_output_clean {x : PyStr} (hx : ∀ c ∈ x, pyIsSpace c = true → c < 128) :
    ∀ c' ∈ make_safe_name x,
      pyIsSpace c' = false ∧ isInvalidFilenameChar c' = false ∧ c' ≠ 32 ∧ pyLowerChar c' = c' := by
  intro c' hc'
  rw [make_safe_name_eq_filterMap] at hc'
  obtain ⟨c, hcmem, hsome⟩ := List.mem_filterMap.mp hc'
  exact msnChar_some_props hsome (fun hsp => hx c (mem_of_mem_pyStrip hcmem) hsp)

lemma map_eq_self_of {α : Type} {f : α → α} {l : List α} (h : ∀ a ∈ l, f a = a) :
    l.map f = l := by
  induction l with
  | nil => rfl
  | cons a l ih =>
    rw [List.map_cons, h a (by simp), ih (fun b hb => h b (List.mem_cons_of_mem _ hb))]

lemma filter_eq_self_of {α : Type} {p : α → Bool} {l : List α} (h : ∀ a ∈ l, p a = true) :
    l.filter p = l := by
  induction l with
  | nil => rfl
  | cons a l ih =>
    rw [List.filter_cons, if_pos (h a (by simp)),
      ih (fun b hb => h b (List.mem_cons_of_mem _ hb))]

end Scraper

namespace Scraper

/-- Claim C4 (counterexample): the sanitizer does not collapse internal
whitespace runs to a single underscore, and an input made solely of
whitespace and control characters need not sanitize to the empty string.
On two internal spaces the code yields two underscores where the spec
pipeline yields one; on the input of codepoints 1, 32, 1 (control, space,
control) the code yields a single underscore, not the empty string. -/
theorem c4_counterexample :
    make_safe_name (lit "a  b") = lit "a__b" ∧
    sanitizeSpecWords (lit "a  b") = lit "a_b" ∧
    make_safe_name (lit "a  b") ≠ sanitizeSpecWords (lit "a  b") ∧
    pyIsSpace 32 = true ∧
    isInvalidFilenameChar 1 = true ∧
    make_safe_name [1, 32, 1] = [95] ∧
    make_safe_name [1, 32, 1] ≠ [] := by
  refine ⟨by decide, by decide, by decide, by decide, by decide, by decide, by decide⟩

/-- Claim C4 (amended): make_safe_name trims Python whitespace from both
ends and then acts on each character independently: filesystem-illegal
characters (controls and reserved punctuation) are removed, each space
character is replaced by one underscore (so a run of k spaces becomes k
underscores, and non-space whitespace is not turned into an underscore),
and ASCII letters are lower-cased; an input consisting only of whitespace
characters sanitizes to the empty string (an input mixing in control
characters may not, as the counterexample shows). -/
theorem c4_amended :
    (∀ x : PyStr, make_safe_name x = (pyStrip x).filterMap msnChar) ∧
    (∀ x : PyStr, (∀ c ∈ x, pyIsSpace c = true) → make_safe_name x = []) := by
  constructor
  · exact make_safe_name_eq_filterMap
  · intro x hx
    rw [make_safe_name_eq_filterMap, pyStrip_eq_nil hx]
    rfl

/-- Witness for c4_amended at concrete inputs. -/
theorem c4_amended_witness :
    make_safe_name (lit "A b") = (pyStrip (lit "A b")).filterMap msnChar ∧
    make_safe_name [32, 9, 32] = [] :=
  ⟨c4_amended.1 (lit "A b"), c4_amended.2 [32, 9, 32] (by decide)⟩

/-- Claim C9 (counterexample): make_safe_name is not idempotent. On the
input of codepoints 97, 160, 63 (letter a, NBSP, question mark) the first
application removes the question mark and leaves a trailing NBSP, which
only the strip of a second application removes. -/
theorem c9_counterexample :
    make_safe_name (make_safe_name [97, 160, 63]) ≠ make_safe_name [97, 160, 63] := by
  decide

/-- Claim C9 (amended): make_safe_name is idempotent on every input that
contains no non-ASCII whitespace character; in general a non-ASCII
whitespace codepoint such as NBSP 160 can survive next to a removed
character and end up at a boundary, where only a second application strips
it. -/
theorem c9_amended (x : PyStr) (hx : ∀ c ∈ x, pyIsSpace c = true → c < 128) :
    make_safe_name (make_safe_name x) = make_safe_name x := by
  have hcl := msn_output_clean hx
  have h1 : pyStrip (make_safe_name x) = make_safe_name x :=
    pyStrip_eq_self (fun c hc => (hcl c hc).1)
  have h2 : sanitize_filename (make_safe_name x) = make_safe_name x :=
    filter_eq_self_of (fun c hc => by simp [(hcl c hc).2.1])
  have h3 : pyReplaceSpaceUnderscore (make_safe_name x) = make_safe_name x :=
    map_eq_self_of (fun c hc => by simp [(hcl c hc).2.2.1])
  have h4 : pyLower (make_safe_name x) = make_safe_name x :=
    map_eq_self_of (fun c hc => (hcl c hc).2.2.2)
  show pyLower (pyReplaceSpaceUnderscore (sanitize_filename (pyStrip (make_safe_name x)))) =
    make_safe_name x
  rw [h1, h2, h3, h4]

/-- Witness for c9_amended at a concrete input. -/
theorem c9_amended_witness :
    make_safe_name (make_safe_name (lit "A  b?")) = make_safe_name (lit "A  b?") :=
  c9_amended (lit "A  b?") (by decide)

lemma runNodes_cons_ok {J : PyStr → PyStr → PyStr} {u f k : PyStr} {st st₁ : ScrapeState}
    {n : Node} {rest : List Node} (h : scrapeStep J u f k st n = .ok st₁) :
    runNodes J u f k st (n :: rest) = runNodes J u f k st₁ rest := by
  simp [runNodes, h]

lemma runNodes_append {J : PyStr → PyStr → PyStr} {u f k : PyStr} (l₁ l₂ : List Node)
    (st st₂ : ScrapeState) :
    runNodes J u f k st (l₁ ++ l₂) = .ok st₂ ↔
      ∃ st₁, runNodes J u f k st l₁ = .ok st₁ ∧ runNodes J u f k st₁ l₂ = .ok st₂ := by
  induction l₁ generalizing st with
  | nil => simp [runNodes]
  | cons n l₁ ih =>
    rw [List.cons_append]
    cases hstep : scrapeStep J u f k st n with
    | error st' => simp [runNodes, hstep]
    | ok st' => simp [runNodes, hstep, ih]

lemma scrapeStep_heading_invalid {J : PyStr → PyStr → PyStr} {u f k : PyStr}
    {st : ScrapeState} {raw : PyStr} (h : make_safe_name (pyStrip raw) = []) :
    scrapeStep J u f k st (.heading raw) = .ok { st with current_title := none } := by
  by_cases ht : pyStrip raw = []
  · simp [scrapeStep, ht]
  · simp [scrapeStep, ht, h]

lemma scrapeStep_heading_valid {J : PyStr → PyStr → PyStr} {u f k : PyStr}
    {st : ScrapeState} {raw : PyStr} (h : make_safe_name (pyStrip raw) ≠ []) :
    scrapeStep J u f k st (.heading raw) = .ok (headingUpd f k st (pyStrip raw)) := by
  have ht : pyStrip raw ≠ [] := by
    intro he
    exact h (by rw [he]; rfl)
  simp only [scrapeStep]
  rw [if_neg ht, if_neg h]
  unfold headingUpd
  split_ifs <;> rfl

lemma scrapeStep_image_noTitle {J : PyStr → PyStr → PyStr} {u f k : PyStr}
    {st : ScrapeState} {o : Option PyStr} (h : st.current_title = none) :
    scrapeStep J u f k st (.image o) = .ok st := by
  simp [scrapeStep, h]

lemma scrapeStep_image_noSrc {J : PyStr → PyStr → PyStr} {u f k : PyStr}
    {st : ScrapeState} {t : PyStr} (h : st.current_title = some t) :
    scrapeStep J u f k st (.image none) = .ok st := by
  simp [scrapeStep, h]

lemma scrapeStep_image_emptySrc {J : PyStr → PyStr → PyStr} {u f k : PyStr}
    {st : ScrapeState} {t : PyStr} (h : st.current_title = some t) :
    scrapeStep J u f k st (.image (some [])) = .ok st := by
  simp [scrapeStep, h]

lemma scrapeStep_image_some {J : PyStr → PyStr → PyStr} {u f k : PyStr}
    {st : ScrapeState} {t s : PyStr} {n : Nat} (h : st.current_title = some t)
    (hc : dictGet st.image_counters t = some n) (hs : s ≠ []) :
    scrapeStep J u f k st (.image (some s)) =
      .ok { st with
              image_counters := dictSet st.image_counters t (n + 1),
              events := st.events ++
                [.download (J u s)
                  (pathJoin (pathJoin f (make_safe_name t)) (pageFilename (n + 1)))] } := by
  simp [scrapeStep, h, hs, hc]

lemma scrapeStep_image_ok_fields {J : PyStr → PyStr → PyStr} {u f k : PyStr}
    {st st₁ : ScrapeState} {o : Option PyStr}
    (h : scrapeStep J u f k st (.image o) = .ok st₁) :
    st₁.titles_for_doctor = st.titles_for_doctor ∧ st₁.titles_seen = st.titles_seen ∧
      st₁.current_title = st.current_title := by
  cases hcur : st.current_title with
  | none =>
    rw [scrapeStep_image_noTitle hcur] at h
    obtain rfl := Except.ok.inj h
    exact ⟨rfl, rfl, hcur⟩
  | some t =>
    cases o with
    | none =>
      rw [scrapeStep_image_noSrc hcur] at h
      obtain rfl := Except.ok.inj h
      exact ⟨rfl, rfl, hcur⟩
    | some s =>
      by_cases hs : s = []
      · subst hs
        rw [scrapeStep_image_emptySrc hcur] at h
        obtain rfl := Except.ok.inj h
        exact ⟨rfl, rfl, hcur⟩
      · cases hc : dictGet st.image_counters t with
        | none => simp [scrapeStep, hcur, hs, hc] at h
        | some n =>
          rw [scrapeStep_image_some hcur hc hs] at h
          obtain rfl := Except.ok.inj h
          exact ⟨rfl, rfl, hcur⟩

lemma dictGet_dictSet_self (m : List (PyStr × Nat)) (k : PyStr) (v : Nat) :
    dictGet (dictSet m k v) k = some v := by
  induction m with
  | nil => simp [dictSet, dictGet]
  | cons p m ih =>
    obtain ⟨k', v'⟩ := p
    by_cases h : k' = k
    · simp [dictSet, dictGet, h]
    · simp [dictSet, dictGet, h, ih]

lemma headingUpd_current (f k : PyStr) (st : ScrapeState) (t : PyStr) :
    (headingUpd f k st t).current_title = some t := by
  unfold headingUpd
  split_ifs <;> rfl

lemma headingUpd_counters (f k : PyStr) (st : ScrapeState) (t : PyStr) :
    (headingUpd f k st t).image_counters = dictSet st.image_counters t 0 := by
  unfold headingUpd
  split_ifs <;> rfl

lemma headingUpd_events (f k : PyStr) (st : ScrapeState) (t : PyStr) :
    (headingUpd f k st t).events =
      st.events ++ [.mkdirTitle (pathJoin f (make_safe_name t))] := by
  unfold headingUpd
  split_ifs <;> rfl

lemma headingUpd_seen_mem (f k : PyStr) (st : ScrapeState) (t : PyStr) :
    make_safe_name t ∈ (headingUpd f k st t).titles_seen := by
  unfold headingUpd
  split_ifs with h
  · exact h
  · simp

lemma scrapeStep_progress {J : PyStr → PyStr → PyStr} {u f k : PyStr} {st : ScrapeState}
    (n : Node) (h : counterInv st) :
    ∃ st', scrapeStep J u f k st n = .ok st' ∧ counterInv st' := by
  cases n with
  | heading raw =>
    by_cases hval : make_safe_name (pyStrip raw) = []
    · refine ⟨_, scrapeStep_heading_invalid hval, ?_⟩
      intro t ht
      simp at ht
    · refine ⟨_, scrapeStep_heading_valid hval, ?_⟩
      intro t ht
      rw [headingUpd_current] at ht
      rw [headingUpd_counters, Option.some.inj ht, dictGet_dictSet_self]
      rfl
  | image o =>
    cases hcur : st.current_title with
    | none => exact ⟨st, scrapeStep_image_noTitle hcur, h⟩
    | some t =>
      cases o with
      | none => exact ⟨st, scrapeStep_image_noSrc hcur, h⟩
      | some s =>
        by_cases hs : s = []
        · subst hs
          exact ⟨st, scrapeStep_image_emptySrc hcur, h⟩
        · obtain ⟨m, hm⟩ := Option.isSome_iff_exists.mp (h t hcur)
          refine ⟨_, scrapeStep_image_some hcur hm hs, ?_⟩
          intro t' ht'
          have ht2 : st.current_title = some t' := ht'
          rw [hcur] at ht2
          obtain rfl := Option.some.inj ht2
          show (dictGet (dictSet st.image_counters t (m + 1)) t).isSome = true
          rw [dictGet_dictSet_self]
          rfl

lemma runNodes_progress {J : PyStr → PyStr → PyStr} {u f k : PyStr} :
    ∀ (nodes : List Node) (st : ScrapeState), counterInv st →
      ∃ st', runNodes J u f k st nodes = .ok st' ∧ counterInv st' := by
  intro nodes
  induction nodes with
  | nil => exact fun st h => ⟨st, rfl, h⟩
  | cons n rest ih =>
    intro st h
    obtain ⟨st₁, hstep, h₁⟩ := scrapeStep_progress n h
    obtain ⟨st', hrun, h'⟩ := ih st₁ h₁
    exact ⟨st', by rw [runNodes_cons_ok hstep]; exact hrun, h'⟩

lemma initState_inv : counterInv initState := by
  intro t ht
  simp [initState] at ht

lemma headingUpd_rows_seen (f k : PyStr) (st : ScrapeState) (t : PyStr) :
    ((headingUpd f k st t).titles_for_doctor =
        (if make_safe_name t ∈ st.titles_seen then st.titles_for_doctor
         else st.titles_for_doctor ++ [(k, pyLower t, make_safe_name t)]) ∧
      (headingUpd f k st t).titles_seen =
        (if make_safe_name t ∈ st.titles_seen then st.titles_seen
         else st.titles_seen ++ [make_safe_name t])) := by
  unfold headingUpd
  split_ifs <;> exact ⟨rfl, rfl⟩

lemma runNodes_rows_seen {J : PyStr → PyStr → PyStr} {u f k : PyStr} :
    ∀ (nodes : List Node) (st st' : ScrapeState),
      runNodes J u f k st nodes = .ok st' →
      st'.titles_for_doctor = st.titles_for_doctor ++
        (dedupBySafe st.titles_seen (validHeadings nodes)).map (fun p => (k, pyLower p.1, p.2)) ∧
      st'.titles_seen = st.titles_seen ++
        (dedupBySafe st.titles_seen (validHeadings nodes)).map Prod.snd := by
  intro nodes
  induction nodes with
  | nil =>
    intro st st' h
    obtain rfl := Except.ok.inj h
    simp [validHeadings, dedupBySafe]
  | cons nd rest ih =>
    intro st st' h
    cases nd with
    | heading raw =>
      by_cases hval : make_safe_name (pyStrip raw) = []
      · rw [runNodes_cons_ok (scrapeStep_heading_invalid hval)] at h
        have hres := ih _ _ h
        by_cases ht : pyStrip raw = []
        · simpa [validHeadings, ht] using hres
        · simpa [validHeadings, ht, hval] using hres
      · rw [runNodes_cons_ok (scrapeStep_heading_valid hval)] at h
        have hres := ih _ _ h
        have ht : pyStrip raw ≠ [] := fun he => hval (by rw [he]; rfl)
        obtain ⟨hr1, hs1⟩ := headingUpd_rows_seen f k st (pyStrip raw)
        by_cases hseen : make_safe_name (pyStrip raw) ∈ st.titles_seen
        · rw [if_pos hseen] at hr1 hs1
          rw [hr1, hs1] at hres
          simp only [validHeadings]
          rw [if_neg ht, if_neg hval]
          rw [dedupBySafe, if_pos hseen]
          exact hres
        · rw [if_neg hseen] at hr1 hs1
          rw [hr1, hs1] at hres
          simp only [validHeadings]
          rw [if_neg ht, if_neg hval]
          rw [dedupBySafe, if_neg hseen]
          constructor
          · rw [hres.1, List.map_cons, List.append_assoc]
            rfl
          · rw [hres.2, List.map_cons, List.append_assoc]
            rfl
    | image o =>
      cases hstep : scrapeStep J u f k st (.image o) with
      | error st₀ =>
        rw [runNodes] at h
        rw [hstep] at h
        exact absurd h (by simp)
      | ok st₁ =>
        rw [runNodes_cons_ok hstep] at h
        obtain ⟨hrow, hseen, _⟩ := scrapeStep_image_ok_fields hstep
        have hres := ih _ _ h
        rw [hrow, hseen] at hres
        simpa [validHeadings] using hres

lemma enumFrom_cons {α : Type} (n : Nat) (a : α) (l : List α) :
    List.enumFrom n (a :: l) = (n, a) :: List.enumFrom (n + 1) l := rfl

lemma segDownloads_nil (J : PyStr → PyStr → PyStr) (u F : PyStr) (n : Nat) :
    segDownloads J u F n [] = [] := rfl

lemma segDownloads_cons_image {J : PyStr → PyStr → PyStr} {u F s : PyStr} {n : Nat}
    {rest : List Node} (hs : s ≠ []) :
    segDownloads J u F n (.image (some s) :: rest) =
      .download (J u s) (pathJoin F (pageFilename (n + 1))) :: segDownloads J u F (n + 1) rest := by
  unfold segDownloads
  rw [imageSrcs, if_neg hs, enumFrom_cons, List.map_cons]

lemma segDownloads_cons_skip_none {J : PyStr → PyStr → PyStr} {u F : PyStr} {n : Nat}
    {rest : List Node} :
    segDownloads J u F n (.image none :: rest) = segDownloads J u F n rest := rfl

lemma segDownloads_cons_skip_empty {J : PyStr → PyStr → PyStr} {u F : PyStr} {n : Nat}
    {rest : List Node} :
    segDownloads J u F n (.image (some []) :: rest) = segDownloads J u F n rest := by
  unfold segDownloads
  rw [imageSrcs, if_pos rfl]

lemma runNodes_images {J : PyStr → PyStr → PyStr} {u f k : PyStr} :
    ∀ (imgs : List Node) (st : ScrapeState) (t : PyStr) (n : Nat),
      (∀ x ∈ imgs, isImageNode x = true) → st.current_title = some t →
      dictGet st.image_counters t = some n →
      ∃ st', runNodes J u f k st imgs = .ok st' ∧
        st'.events = st.events ++ segDownloads J u (pathJoin f (make_safe_name t)) n imgs ∧
        st'.current_title = some t ∧
        dictGet st'.image_counters t = some (n + (imageSrcs imgs).length) ∧
        st'.titles_for_doctor = st.titles_for_doctor ∧ st'.titles_seen = st.titles_seen := by
  intro imgs
  induction imgs with
  | nil =>
    intro st t n _ hcur hc
    refine ⟨st, rfl, by simp [segDownloads, imageSrcs], hcur, by simpa using hc, rfl, rfl⟩
  | cons x rest ih =>
    intro st t n hall hcur hc
    have hall' : ∀ y ∈ rest, isImageNode y = true :=
      fun y hy => hall y (List.mem_cons_of_mem _ hy)
    cases x with
    | heading raw =>
      have hbad := hall (Node.heading raw) (by simp)
      simp [isImageNode] at hbad
    | image o =>
      cases o with
      | none =>
        obtain ⟨st', h1, h2, h3, h4, h5, h6⟩ := ih st t n hall' hcur hc
        refine ⟨st', by rw [runNodes_cons_ok (scrapeStep_image_noSrc hcur)]; exact h1,
          by rw [segDownloads_cons_skip_none]; exact h2, h3,
          by simpa [imageSrcs] using h4, h5, h6⟩
      | some s =>
        by_cases hs : s = []
        · subst hs
          obtain ⟨st', h1, h2, h3, h4, h5, h6⟩ := ih st t n hall' hcur hc
          refine ⟨st', by rw [runNodes_cons_ok (scrapeStep_image_emptySrc hcur)]; exact h1,
            by rw [segDownloads_cons_skip_empty]; exact h2, h3,
            by rw [imageSrcs, if_pos rfl]; exact h4, h5, h6⟩
        · have hstep := scrapeStep_image_some (J := J) (u := u) (f := f) (k := k) hcur hc hs
          obtain ⟨st', h1, h2, h3, h4, h5, h6⟩ :=
            ih { st with
                  image_counters := dictSet st.image_counters t (n + 1),
                  events := st.events ++
                    [.download (J u s)
                      (pathJoin (pathJoin f (make_safe_name t)) (pageFilename (n + 1)))] }
              t (n + 1) hall' hcur (dictGet_dictSet_self _ _ _)
          refine ⟨st', by rw [runNodes_cons_ok hstep]; exact h1, ?_, h3, ?_, by simpa using h5,
            by simpa using h6⟩
          · rw [segDownloads_cons_image hs, h2]
            simp
          · rw [h4, imageSrcs, if_neg hs, List.length_cons]
            have harith : n + 1 + (imageSrcs rest).length = n + ((imageSrcs rest).length + 1) := by
              omega
            rw [harith]

/-- Claim C1: on the node sequence heading A, image u1, image u2, empty
heading, image u3, heading B, image u4, the loop produces exactly the two
manifest rows for A and B in that order; u1 and u2 are downloaded as
page_01 and page_02 inside the folder of a; u3 is dropped because the
empty heading resets current_title to none; u4 is downloaded as page_01
inside the folder of b. The full final loop state is pinned down. -/
theorem c1_example_sequence (J : PyStr → PyStr → PyStr) (u f k : PyStr) (u1 u2 u3 u4 : PyStr)
    (h1 : u1 ≠ []) (h2 : u2 ≠ []) (h4 : u4 ≠ []) :
    runNodes J u f k initState
      [.heading (lit "A"), .image (some u1), .image (some u2), .heading [],
       .image (some u3), .heading (lit "B"), .image (some u4)] =
    .ok ⟨some (lit "B"), [(lit "A", 2), (lit "B", 1)],
         [(k, lit "a", lit "a"), (k, lit "b", lit "b")],
         [lit "a", lit "b"],
         [.mkdirTitle (pathJoin f (lit "a")),
          .download (J u u1) (pathJoin (pathJoin f (lit "a")) (lit "page_01.jpg")),
          .download (J u u2) (pathJoin (pathJoin f (lit "a")) (lit "page_02.jpg")),
          .mkdirTitle (pathJoin f (lit "b")),
          .download (J u u4) (pathJoin (pathJoin f (lit "b")) (lit "page_01.jpg"))]⟩ := by
  obtain ⟨c1, t1, rfl⟩ := List.exists_cons_of_ne_nil h1
  obtain ⟨c2, t2, rfl⟩ := List.exists_cons_of_ne_nil h2
  obtain ⟨c4, t4, rfl⟩ := List.exists_cons_of_ne_nil h4
  rfl

/-- Witness for c1_example_sequence at concrete inputs. -/
theorem c1_example_sequence_witness :
    runNodes (fun _ s => s) [117] [102] [100] initState
      [.heading (lit "A"), .image (some [49]), .image (some [50]), .heading [],
       .image (some [51]), .heading (lit "B"), .image (some [52])] =
    .ok ⟨some (lit "B"), [(lit "A", 2), (lit "B", 1)],
         [([100], lit "a", lit "a"), ([100], lit "b", lit "b")],
         [lit "a", lit "b"],
         [.mkdirTitle (pathJoin [102] (lit "a")),
          .download ((fun (_ : PyStr) (s : PyStr) => s) [117] [49])
            (pathJoin (pathJoin [102] (lit "a")) (lit "page_01.jpg")),
          .download ((fun (_ : PyStr) (s : PyStr) => s) [117] [50])
            (pathJoin (pathJoin [102] (lit "a")) (lit "page_02.jpg")),
          .mkdirTitle (pathJoin [102] (lit "b")),
          .download ((fun (_ : PyStr) (s : PyStr) => s) [117] [52])
            (pathJoin (pathJoin [102] (lit "b")) (lit "page_01.jpg"))]⟩ :=
  c1_example_sequence (fun _ s => s) [117] [102] [100] [49] [50] [51] [52]
    (by decide) (by decide) (by decide)

/-- Claim C3: the manifest rows a section run produces are exactly one row
per distinct nonempty safe name among the valid headings, in first-seen
order, each row carrying the doctor key, the lower-cased trimmed text of
the first heading occurrence with that safe name, and the safe name. -/
theorem c3_rows_dedup (J : PyStr → PyStr → PyStr) (u f k : PyStr) (nodes : List Node)
    (st : ScrapeState) (h : runNodes J u f k initState nodes = .ok st) :
    st.titles_for_doctor =
      (dedupBySafe [] (validHeadings nodes)).map (fun p => (k, pyLower p.1, p.2)) := by
  have hres := runNodes_rows_seen nodes initState st h
  simpa [initState] using hres.1

/-- Witness for c3_rows_dedup on a sequence with a repeated heading. -/
theorem c3_rows_dedup_witness :
    (⟨some [65], [([65], 0)], [([100], [97], [97])], [[97]],
      [.mkdirTitle [102, 47, 97],
       .download [115] [102, 47, 97, 47, 112, 97, 103, 101, 95, 48, 49, 46, 106, 112, 103],
       .mkdirTitle [102, 47, 97]]⟩ : ScrapeState).titles_for_doctor =
      (dedupBySafe []
        (validHeadings [.heading [65], .image (some [115]), .heading [65]])).map
          (fun p => ([100], pyLower p.1, p.2)) :=
  c3_rows_dedup (fun _ s => s) [117] [102] [100]
    [.heading [65], .image (some [115]), .heading [65]]
    ⟨some [65], [([65], 0)], [([100], [97], [97])], [[97]],
      [.mkdirTitle [102, 47, 97],
       .download [115] [102, 47, 97, 47, 112, 97, 103, 101, 95, 48, 49, 46, 106, 112, 103],
       .mkdirTitle [102, 47, 97]]⟩
    (by decide)

/-- Claim C10: the node loop never fails: from the initial state the
KeyError branch of the counter lookup is unreachable, because whenever
current_title is set it is a key of image_counters; and the downloads
emitted for the images following a valid heading, up to the next heading,
carry the consecutive page numbers 1, 2, 3 and so on, as segDownloads
starting from counter 0 spells out. -/
theorem c10_no_keyerror_consecutive_pages (J : PyStr → PyStr → PyStr) (u f k : PyStr) :
    (∀ nodes : List Node, ∃ st, runNodes J u f k initState nodes = .ok st) ∧
    (∀ (p imgs : List Node) (raw : PyStr) (st' : ScrapeState),
      (∀ x ∈ imgs, isImageNode x = true) →
      make_safe_name (pyStrip raw) ≠ [] →
      runNodes J u f k initState (p ++ .heading raw :: imgs) = .ok st' →
      ∃ st₀, runNodes J u f k initState (p ++ [.heading raw]) = .ok st₀ ∧
        st'.events = st₀.events ++
          segDownloads J u (pathJoin f (make_safe_name (pyStrip raw))) 0 imgs) := by
  constructor
  · intro nodes
    obtain ⟨st, hrun, -⟩ := runNodes_progress nodes initState initState_inv
    exact ⟨st, hrun⟩
  · intro p imgs raw st' himgs hval h
    rw [show p ++ Node.heading raw :: imgs = (p ++ [Node.heading raw]) ++ imgs by simp] at h
    obtain ⟨st₀, hp, hrest⟩ := (runNodes_append (p ++ [Node.heading raw]) imgs initState st').mp h
    obtain ⟨stp, hpp, hstep⟩ := (runNodes_append p [Node.heading raw] initState st₀).mp hp
    rw [runNodes_cons_ok (scrapeStep_heading_valid hval)] at hstep
    obtain rfl := Except.ok.inj hstep
    have hcur := headingUpd_current f k stp (pyStrip raw)
    have hcnt : dictGet (headingUpd f k stp (pyStrip raw)).image_counters (pyStrip raw) = some 0 := by
      rw [headingUpd_counters, dictGet_dictSet_self]
    obtain ⟨st'', h1, h2, -, -, -, -⟩ :=
      runNodes_images imgs (headingUpd f k stp (pyStrip raw)) (pyStrip raw) 0 himgs hcur hcnt
    rw [h1] at hrest
    obtain rfl := Except.ok.inj hrest
    exact ⟨headingUpd f k stp (pyStrip raw), hp, h2⟩

/-- Witness for c10_no_keyerror_consecutive_pages at a concrete run. -/
theorem c10_no_keyerror_consecutive_pages_witness :
    (⟨some [65], [([65], 1)], [([100], [97], [97])], [[97]],
      [.mkdirTitle [102, 47, 97],
       .download [115]
         [102, 47, 97, 47, 112, 97, 103, 101, 95, 48, 49, 46, 106, 112, 103]]⟩ :
        ScrapeState).events =
      (⟨some [65], [([65], 0)], [([100], [97], [97])], [[97]],
        [.mkdirTitle [102, 47, 97]]⟩ : ScrapeState).events ++
        segDownloads (fun _ s => s) [117] (pathJoin [102] (make_safe_name (pyStrip [65]))) 0
          [Node.image (some [115])] := by
  obtain ⟨st₀, h0, hev⟩ :=
    (c10_no_keyerror_consecutive_pages (fun _ s => s) [117] [102] [100]).2
      [] [Node.image (some [115])] [65]
      ⟨some [65], [([65], 1)], [([100], [97], [97])], [[97]],
        [.mkdirTitle [102, 47, 97],
         .download [115] [102, 47, 97, 47, 112, 97, 103, 101, 95, 48, 49, 46, 106, 112, 103]]⟩
      (by decide) (by decide) (by decide)
  have h0c : runNodes (fun (_ : PyStr) (s : PyStr) => s) [117] [102] [100] initState
      ([] ++ [Node.heading [65]]) =
      .ok (⟨some [65], [([65], 0)], [([100], [97], [97])], [[97]],
        [.mkdirTitle [102, 47, 97]]⟩ : ScrapeState) := by decide
  obtain rfl := Except.ok.inj (h0c.symm.trans h0)
  exact hev

/-- Claim C2: when the same heading text occurs twice, each occurrence
restarts the page counter, so the first image after either occurrence is
written as page_01 inside the folder derived from the shared safe name:
the download paths of the second occurrence repeat those of the first,
and the second occurrence appends no new manifest row. -/
theorem c2_repeated_heading (J : PyStr → PyStr → PyStr) (u f k : PyStr) (p q : List Node)
    (raw s₁ s₂ : PyStr) (st₂ : ScrapeState)
    (hval : make_safe_name (pyStrip raw) ≠ []) (hs₁ : s₁ ≠ []) (hs₂ : s₂ ≠ [])
    (h : runNodes J u f k initState
      (p ++ [.heading raw, .image (some s₁)] ++ q ++ [.heading raw, .image (some s₂)]) =
        .ok st₂) :
    ∃ stp st₁ stm,
      runNodes J u f k initState p = .ok stp ∧
      runNodes J u f k initState (p ++ [.heading raw, .image (some s₁)]) = .ok st₁ ∧
      st₁.events = stp.events ++
        [.mkdirTitle (pathJoin f (make_safe_name (pyStrip raw))),
         .download (J u s₁)
           (pathJoin (pathJoin f (make_safe_name (pyStrip raw))) (pageFilename 1))] ∧
      runNodes J u f k initState (p ++ [.heading raw, .image (some s₁)] ++ q) = .ok stm ∧
      st₂.events = stm.events ++
        [.mkdirTitle (pathJoin f (make_safe_name (pyStrip raw))),
         .download (J u s₂)
           (pathJoin (pathJoin f (make_safe_name (pyStrip raw))) (pageFilename 1))] ∧
      st₂.titles_for_doctor = stm.titles_for_doctor := by
  obtain ⟨stm, hm, hY⟩ :=
    (runNodes_append (p ++ [Node.heading raw, Node.image (some s₁)] ++ q)
      [Node.heading raw, Node.image (some s₂)] initState st₂).mp h
  obtain ⟨st₁, hpx, hq⟩ :=
    (runNodes_append (p ++ [Node.heading raw, Node.image (some s₁)]) q initState stm).mp hm
  obtain ⟨stp, hp, hX⟩ :=
    (runNodes_append p [Node.heading raw, Node.image (some s₁)] initState st₁).mp hpx
  rw [runNodes_cons_ok (scrapeStep_heading_valid hval)] at hX
  have hcur1 := headingUpd_current f k stp (pyStrip raw)
  have hcnt1 : dictGet (headingUpd f k stp (pyStrip raw)).image_counters (pyStrip raw) = some 0 := by
    rw [headingUpd_counters, dictGet_dictSet_self]
  rw [runNodes_cons_ok (scrapeStep_image_some hcur1 hcnt1 hs₁)] at hX
  obtain rfl := Except.ok.inj hX
  rw [runNodes_cons_ok (scrapeStep_heading_valid hval)] at hY
  have hcur2 := headingUpd_current f k stm (pyStrip raw)
  have hcnt2 : dictGet (headingUpd f k stm (pyStrip raw)).image_counters (pyStrip raw) = some 0 := by
    rw [headingUpd_counters, dictGet_dictSet_self]
  rw [runNodes_cons_ok (scrapeStep_image_some hcur2 hcnt2 hs₂)] at hY
  obtain rfl := Except.ok.inj hY
  have hmem : make_safe_name (pyStrip raw) ∈ stm.titles_seen := by
    rw [(runNodes_rows_seen q _ stm hq).2]
    exact List.mem_append_left _ (headingUpd_seen_mem f k stp (pyStrip raw))
  refine ⟨stp, _, stm, hp, hpx, ?_, hm, ?_, ?_⟩
  · show (headingUpd f k stp (pyStrip raw)).events ++
      [.download (J u s₁)
        (pathJoin (pathJoin f (make_safe_name (pyStrip raw))) (pageFilename (0 + 1)))] = _
    rw [headingUpd_events]
    simp
  · show (headingUpd f k stm (pyStrip raw)).events ++
      [.download (J u s₂)
        (pathJoin (pathJoin f (make_safe_name (pyStrip raw))) (pageFilename (0 + 1)))] = _
    rw [headingUpd_events]
    simp
  · have hr := (headingUpd_rows_seen f k stm (pyStrip raw)).1
    rw [if_pos hmem] at hr
    exact hr

lemma numberRowsFrom_length (rows : List (PyStr × PyStr × PyStr)) :
    ∀ c : Nat, (numberRowsFrom c rows).length = rows.length := by
  induction rows with
  | nil => intro c; rfl
  | cons r rest ih =>
    intro c
    simp [numberRowsFrom, ih (c + 1)]

lemma numberRowsFrom_get? (rows : List (PyStr × PyStr × PyStr)) :
    ∀ (c i : Nat),
      (numberRowsFrom c rows).get? i = (rows.get? i).map (fun r => (c + i + 1, r)) := by
  induction rows with
  | nil => intro c i; simp [numberRowsFrom]
  | cons r rest ih =>
    intro c i
    cases i with
    | zero => simp [numberRowsFrom]
    | succ j =>
      simp only [numberRowsFrom, List.get?_cons_succ]
      rw [ih (c + 1) j]
      have e : c + 1 + j + 1 = c + (j + 1) + 1 := by omega
      rw [e]

lemma scrape_fetch_error_eq (J : PyStr → PyStr → PyStr) (url k root : PyStr) (e : Unit) :
    scrape_doctor_section J url k root (.error e) =
      ([.mkdirDoctor (pathJoin root k)], .error ()) := rfl

lemma scrape_fetch_ok_eq (J : PyStr → PyStr → PyStr) (url k root : PyStr) (nodes : List Node) :
    scrape_doctor_section J url k root (.ok nodes) =
      scrapeSectionOutcome (pathJoin root k)
        (runNodes J url (pathJoin root k) k initState nodes) := rfl

lemma mainLoop_nil_eq (J : PyStr → PyStr → PyStr) (sections : List (PyStr × PyStr))
    (root : PyStr) (fetch : PyStr → Except Unit (List Node)) :
    mainLoop J sections root fetch [] = ([], .ok []) := rfl

lemma mainLoop_cons_eq (J : PyStr → PyStr → PyStr) (sections : List (PyStr × PyStr))
    (root : PyStr) (fetch : PyStr → Except Unit (List Node)) (k : PyStr) (ks : List PyStr) :
    mainLoop J sections root fetch (k :: ks) =
      mainLoopStep J root fetch k (mainLoop J sections root fetch ks)
        (lookupSection sections k) := rfl

lemma mainLoopStep_none_eq (J : PyStr → PyStr → PyStr) (root : PyStr)
    (fetch : PyStr → Except Unit (List Node)) (k : PyStr)
    (rest : List RunEffect × Except Unit (List (PyStr × PyStr × PyStr))) :
    mainLoopStep J root fetch k rest none = rest := rfl

lemma mainLoopStep_some_eq (J : PyStr → PyStr → PyStr) (root : PyStr)
    (fetch : PyStr → Except Unit (List Node)) (k url : PyStr)
    (rest : List RunEffect × Except Unit (List (PyStr × PyStr × PyStr))) :
    mainLoopStep J root fetch k rest (some url) =
      mainLoopCombine (scrape_doctor_section J url k root (fetch url)) rest := rfl

lemma mainLoopCombine_error_eq (evs : List RunEffect) (u : Unit)
    (rest : List RunEffect × Except Unit (List (PyStr × PyStr × PyStr))) :
    mainLoopCombine (evs, .error u) rest = (evs, .error ()) := rfl

lemma mainLoopCombine_ok_error_eq (evs evs' : List RunEffect)
    (rows : List (PyStr × PyStr × PyStr)) (u : Unit) :
    mainLoopCombine (evs, .ok rows) (evs', .error u) = (evs ++ evs', .error ()) := rfl

lemma mainLoopCombine_ok_ok_eq (evs evs' : List RunEffect)
    (rows rows' : List (PyStr × PyStr × PyStr)) :
    mainLoopCombine (evs, .ok rows) (evs', .ok rows') =
      (evs ++ evs', .ok (rows ++ rows')) := rfl

lemma mainFinish_error_eq (root : PyStr) (evs : List RunEffect) (u : Unit) :
    mainFinish root (evs, .error u) = ([.mkdirRoot root] ++ evs, false) := rfl

lemma mainFinish_ok_eq (root : PyStr) (evs : List RunEffect)
    (rows : List (PyStr × PyStr × PyStr)) :
    mainFinish root (evs, .ok rows) =
      (if rows = [] then ([.mkdirRoot root] ++ evs, true)
       else
        ([.mkdirRoot root] ++ evs ++
          [.writeCSV (pathJoin root (lit "titles_list.csv")) (create_csv rows),
           .writePDF (pathJoin root (lit "titles_list.pdf")) (create_pdf rows)],
         true)) := rfl

lemma selectFromInt_none_eq (options : List PyStr) : selectFromInt options none = [] := rfl

lemma selectFromInt_some_eq (options : List PyStr) (n : Int) :
    selectFromInt options (some n) =
      (if n = (options.length : Int) + 1 then options
       else if 1 ≤ n ∧ n ≤ (options.length : Int) then [options.getD (n.toNat - 1) []]
       else []) := rfl

lemma scrapeSectionOutcome_no_write {F : PyStr} {r : Except ScrapeState ScrapeState} :
    ∀ e ∈ (scrapeSectionOutcome F r).1, isWriteEffect e = false := by
  rcases r with st | st <;>
  · intro e he
    simp only [scrapeSectionOutcome] at he
    rcases List.mem_cons.mp he with rfl | hm
    · rfl
    · obtain ⟨ev, -, rfl⟩ := List.mem_map.mp hm
      rfl

lemma scrape_doctor_section_no_write {J : PyStr → PyStr → PyStr} {url k root : PyStr}
    {fetched : Except Unit (List Node)} :
    ∀ e ∈ (scrape_doctor_section J url k root fetched).1, isWriteEffect e = false := by
  intro e he
  rcases fetched with u | nodes
  · rw [scrape_fetch_error_eq] at he
    rcases List.mem_cons.mp he with rfl | hm
    · rfl
    · simp at hm
  · rw [scrape_fetch_ok_eq] at he
    exact scrapeSectionOutcome_no_write e he

lemma mainLoop_no_write {J : PyStr → PyStr → PyStr} {sections : List (PyStr × PyStr)}
    {root : PyStr} {fetch : PyStr → Except Unit (List Node)} :
    ∀ (ks : List PyStr) (e : RunEffect),
      e ∈ (mainLoop J sections root fetch ks).1 → isWriteEffect e = false := by
  intro ks
  induction ks with
  | nil =>
    intro e he
    rw [mainLoop_nil_eq] at he
    simp at he
  | cons k ks ih =>
    intro e he
    rw [mainLoop_cons_eq] at he
    rcases hlk : lookupSection sections k with _ | url
    · rw [hlk, mainLoopStep_none_eq] at he
      exact ih e he
    · rw [hlk, mainLoopStep_some_eq] at he
      rcases hs : scrape_doctor_section J url k root (fetch url) with ⟨evs₁, res₁⟩
      rw [hs] at he
      rcases res₁ with u | rows
      · rw [mainLoopCombine_error_eq] at he
        exact scrape_doctor_section_no_write e (by rw [hs]; exact he)
      · rcases hr : mainLoop J sections root fetch ks with ⟨evs₂, res₂⟩
        rw [hr] at he
        rcases res₂ with u2 | rows₂
        · rw [mainLoopCombine_ok_error_eq] at he
          rcases List.mem_append.mp he with h1 | h2
          · exact scrape_doctor_section_no_write e (by rw [hs]; exact h1)
          · exact ih e (by rw [hr]; exact h2)
        · rw [mainLoopCombine_ok_ok_eq] at he
          rcases List.mem_append.mp he with h1 | h2
          · exact scrape_doctor_section_no_write e (by rw [hs]; exact h1)
          · exact ih e (by rw [hr]; exact h2)

/-- Claim C7: the CSV writer numbers the accumulated rows at write time:
the data row at position i of the output carries ordinal i + 1, so the
ordinals are exactly 1..N, 1-based, increasing by exactly one per row and
never reused; the row tuples themselves carry no ordinal field. -/
theorem c7_csv_ordinals (all_rows : List (PyStr × PyStr × PyStr)) :
    (create_csv all_rows).length = all_rows.length ∧
    ∀ i : Nat, (create_csv all_rows).get? i = (all_rows.get? i).map (fun r => (i + 1, r)) := by
  constructor
  · exact numberRowsFrom_length all_rows 0
  · intro i
    rw [create_csv, numberRowsFrom_get? all_rows 0 i]
    simp

/-- Claim C8: when the selected sections all process without exception and
no manifest row accumulates, the run still completes normally and neither
the CSV nor the PDF write effect occurs (nor would any other write). -/
theorem c8_empty_rows_no_manifest (J : PyStr → PyStr → PyStr)
    (sections : List (PyStr × PyStr)) (root : PyStr)
    (fetch : PyStr → Except Unit (List Node)) (choice : PyStr)
    (hempty : (mainLoop J sections root fetch
      (choose_doctor_keys (sections.map Prod.fst) choice)).2 = Except.ok []) :
    (mainRun J sections root fetch choice).2 = true ∧
    ∀ e ∈ (mainRun J sections root fetch choice).1, isWriteEffect e = false := by
  by_cases hk : choose_doctor_keys (sections.map Prod.fst) choice = []
  · have hrw : mainRun J sections root fetch choice = ([.mkdirRoot root], true) := by
      unfold mainRun
      rw [if_pos hk]
    constructor
    · rw [hrw]
    · intro e he
      rw [hrw] at he
      simp at he
      subst he
      rfl
  · rcases hl : mainLoop J sections root fetch (choose_doctor_keys (sections.map Prod.fst) choice)
      with ⟨evs, res⟩
    rw [hl] at hempty
    have hres : res = Except.ok [] := hempty
    subst hres
    have hrw : mainRun J sections root fetch choice = ([.mkdirRoot root] ++ evs, true) := by
      unfold mainRun
      rw [if_neg hk, hl, mainFinish_ok_eq, if_pos rfl]
    constructor
    · rw [hrw]
    · intro e he
      rw [hrw] at he
      rcases List.mem_append.mp he with h1 | h2
      · simp at h1
        subst h1
        rfl
      · exact mainLoop_no_write _ e (by rw [hl]; exact h2)

/-- Witness for c8_empty_rows_no_manifest at a concrete run. -/
theorem c8_empty_rows_no_manifest_witness :
    (mainRun (fun _ s => s) [([107], [117])] [114] (fun _ => .ok [.heading []]) [49]).2 = true :=
  (c8_empty_rows_no_manifest (fun _ s => s) [([107], [117])] [114]
    (fun _ => .ok [.heading []]) [49] (by decide)).1

/-- Claim C6 (counterexample): an invalid selection does abort the run with
no CSV, PDF, section or title folder, but not with zero side effects: the
download root folder is created by get_download_root before the selection
prompt, so the effect list of an aborted run is nonempty. -/
theorem c6_counterexample :
    mainRun (fun _ s => s) [([107], [117])] [114] (fun _ => .ok []) [120] =
      ([.mkdirRoot [114]], true) ∧
    (mainRun (fun _ s => s) [([107], [117])] [114] (fun _ => .ok []) [120]).1 ≠ [] := by
  refine ⟨by decide, by decide⟩

/-- Claim C6 (amended): for every non-numeric or out-of-range selection
input the run returns normally having performed no work beyond the one
unconditional side effect: creating the download root folder. No doctor or
title folder is created and no CSV or PDF is written. -/
theorem c6_amended (J : PyStr → PyStr → PyStr) (sections : List (PyStr × PyStr))
    (root : PyStr) (fetch : PyStr → Except Unit (List Node)) (choice : PyStr)
    (hbad : pyToInt (pyStrip choice) = none ∨
      ∃ n : Int, pyToInt (pyStrip choice) = some n ∧
        ¬(1 ≤ n ∧ n ≤ ((sections.map Prod.fst).length : Int)) ∧
        n ≠ ((sections.map Prod.fst).length : Int) + 1) :
    mainRun J sections root fetch choice = ([.mkdirRoot root], true) := by
  have hk : choose_doctor_keys (sections.map Prod.fst) choice = [] := by
    unfold choose_doctor_keys
    rcases hbad with hnone | ⟨n, hn, hnr, hne⟩
    · rw [hnone]
      rfl
    · rw [hn, selectFromInt_some_eq, if_neg hne, if_neg hnr]
  unfold mainRun
  rw [if_pos hk]

/-- Witness for c6_amended at a concrete non-numeric input. -/
theorem c6_amended_witness :
    mainRun (fun _ s => s) [([107], [117])] [115] (fun _ => .ok []) [43] =
      ([.mkdirRoot [115]], true) :=
  c6_amended (fun _ s => s) [([107], [117])] [115] (fun _ => .ok []) [43]
    (Or.inl (by decide))

/-- Claim C5 (counterexample): with two configured sections, the all
option selected and the first section page fetch failing, the run records
only the root mkdir and the first doctor folder mkdir and then aborts: the
second section is never scraped (no mkdir for it appears) and no CSV or
PDF is written, contradicting per-section isolation. -/
theorem c5_counterexample :
    mainRun (fun _ s => s) [([97], [117]), ([98], [118])] [114]
      (fun u => if u = [117] then .error () else .ok [.heading [84], .image (some [115])])
      [51] =
      ([.mkdirRoot [114], .mkdirDoctor [114, 47, 97]], false) ∧
    (mainRun (fun _ s => s) [([97], [117]), ([98], [118])] [114]
      (fun u => if u = [117] then .error () else .ok [.heading [84], .image (some [115])])
      [51]).2 = false := by
  refine ⟨by decide, by decide⟩

/-- Claim C5 (amended): a section page fetch failure is not isolated to
that section: the raise_for_status exception propagates out of main, so
processing stops at the failing section. When the first selected section
fails to fetch, the whole run ends abnormally with only the root mkdir and
that section folder mkdir performed; no later section is attempted and no
manifest is written. -/
theorem c5_amended (J : PyStr → PyStr → PyStr) (sections : List (PyStr × PyStr))
    (root : PyStr) (fetch : PyStr → Except Unit (List Node)) (choice : PyStr)
    (k url : PyStr) (ks : List PyStr)
    (hkeys : choose_doctor_keys (sections.map Prod.fst) choice = k :: ks)
    (hurl : lookupSection sections k = some url)
    (hfail : fetch url = Except.error ()) :
    mainRun J sections root fetch choice =
      ([.mkdirRoot root, .mkdirDoctor (pathJoin root k)], false) := by
  have hml : mainLoop J sections root fetch (k :: ks) =
      ([.mkdirDoctor (pathJoin root k)], .error ()) := by
    rw [mainLoop_cons_eq, hurl, mainLoopStep_some_eq, hfail, scrape_fetch_error_eq,
      mainLoopCombine_error_eq]
  unfold mainRun
  rw [hkeys, if_neg (by simp), hml, mainFinish_error_eq]
  rfl

/-- Witness for c5_amended at a concrete failing fetch. -/
theorem c5_amended_witness :
    mainRun (fun _ s => s) [([97], [117]), ([98], [118])] [114]
      (fun u => if u = [117] then .error () else .ok [.heading [84], .image (some [115])])
      [51] =
      ([.mkdirRoot [114], .mkdirDoctor (pathJoin [114] [97])], false) :=
  c5_amended (fun _ s => s) [([97], [117]), ([98], [118])] [114]
    (fun u => if u = [117] then .error () else .ok [.heading [84], .image (some [115])])
    [51] [97] [117] [[98]] (by decide) (by decide) (by decide)

/-- Witness for c2_repeated_heading at a concrete run: the final state of
the run heading A, image 115, heading A, image 116 carries the same row
list as the state before the second heading occurrence. -/
theorem c2_repeated_heading_witness :
    (⟨some [65], [([65], 1)], [([100], [97], [97])], [[97]],
      [.mkdirTitle [102, 47, 97],
       .download [115] [102, 47, 97, 47, 112, 97, 103, 101, 95, 48, 49, 46, 106, 112, 103],
       .mkdirTitle [102, 47, 97],
       .download [116] [102, 47, 97, 47, 112, 97, 103, 101, 95, 48, 49, 46, 106, 112, 103]]⟩ :
        ScrapeState).titles_for_doctor =
      (⟨some [65], [([65], 1)], [([100], [97], [97])], [[97]],
        [.mkdirTitle [102, 47, 97],
         .download [115] [102, 47, 97, 47, 112, 97, 103, 101, 95, 48, 49, 46, 106, 112, 103]]⟩ :
          ScrapeState).titles_for_doctor := by
  obtain ⟨stp, st₁, stm, -, -, -, h4, -, h6⟩ :=
    c2_repeated_heading (fun _ s => s) [117] [102] [100] [] [] [65] [115] [116]
      ⟨some [65], [([65], 1)], [([100], [97], [97])], [[97]],
        [.mkdirTitle [102, 47, 97],
         .download [115] [102, 47, 97, 47, 112, 97, 103, 101, 95, 48, 49, 46, 106, 112, 103],
         .mkdirTitle [102, 47, 97],
         .download [116] [102, 47, 97, 47, 112, 97, 103, 101, 95, 48, 49, 46, 106, 112, 103]]⟩
      (by decide) (by decide) (by decide) (by decide)
  have hM : runNodes (fun (_ : PyStr) (s : PyStr) => s) [117] [102] [100] initState
      ([] ++ [.heading [65], .image (some [115])] ++ []) =
      .ok (⟨some [65], [([65], 1)], [([100], [97], [97])], [[97]],
        [.mkdirTitle [102, 47, 97],
         .download [115]
           [102, 47, 97, 47, 112, 97, 103, 101, 95, 48, 49, 46, 106, 112, 103]]⟩ :
          ScrapeState) := by decide
  obtain rfl := Except.ok.inj (hM.symm.trans h4)
  exact h6

end Scraper
